import Mathlib

/-!
Verification of the instance normalization and aggregation layer of the
hyperbolic-cli tool (package `cmd`, files `instances.go` and `terminate.go`).

The Go code is shallowly embedded: Go structs become Lean structures whose
field defaults are the Go zero values (JSON-absent fields decode to zero
values), Go `int` becomes `Int`, the float64 price field becomes `ℚ`,
Go maps become association lists, and the HTTP fetches become explicit
`Except`/`Option` parameters holding the fetched or failed result.
Wall-clock timestamps are modelled at second granularity: the four-format
`time.Parse` fallback chain of `calculateUptime` is abstracted into a single
partial parse function `String → Option Int` (the chain's first success),
and `time.Now()` into an explicit `now : Int` argument.
-/

/-! ## Decimal integer rendering and parsing (`strconv.Itoa` / `strconv.Atoi`) -/

/-- Decimal digits of `n`, most significant first; fuelled so that the kernel
can evaluate it (`fuel > n` suffices). Mirrors the digit loop of Go's
`strconv.Itoa`/`formatBits`. -/
def natDigitsAux : Nat → Nat → List Char
  | 0, _ => []
  | fuel + 1, n =>
    if n < 10 then [Char.ofNat (48 + n)]
    else natDigitsAux fuel (n / 10) ++ [Char.ofNat (48 + n % 10)]

def natDigits (n : Nat) : List Char := natDigitsAux (n + 1) n

/-- Canonical decimal rendering of an integer, as produced by Go's
`strconv.Itoa` (and by `fmt.Sprintf("%d", ·)`). -/
def itoa (n : Int) : String :=
  if n < 0 then ⟨'-' :: natDigits (-n).toNat⟩ else ⟨natDigits n.toNat⟩

/-- Value of a decimal digit character, `none` on a non-digit. -/
def digitVal (c : Char) : Option Nat :=
  if '0' ≤ c ∧ c ≤ '9' then some (c.toNat - 48) else none

/-- Accumulating decimal parse; fails on the first non-digit character. -/
def parseDigitsCore : Nat → List Char → Option Nat
  | acc, [] => some acc
  | acc, c :: rest =>
    match digitVal c with
    | some d => parseDigitsCore (acc * 10 + d) rest
    | none => none

/-- Parse a non-empty all-digit character list. -/
def parseDigits : List Char → Option Nat
  | [] => none
  | l => parseDigitsCore 0 l

/-- Go's `strconv.Atoi`: optional leading sign, then a non-empty run of
decimal digits covering the whole string. (Modelled without the int64
overflow bound, which no claim exercises.) -/
def atoi (s : String) : Option Int :=
  match s.data with
  | [] => none
  | c :: rest =>
    if c = '+' then (parseDigits rest).map (fun m => (m : Int))
    else if c = '-' then (parseDigits rest).map (fun m => -(m : Int))
    else (parseDigits (c :: rest)).map (fun m => (m : Int))

/-- Go's `strings.ToLower`, ASCII-faithful. -/
def toLowerStr (s : String) : String := ⟨s.data.map Char.toLower⟩

/-! ## Data model (`instances.go` struct declarations)

Field defaults are the Go zero values. `end`, `instance` and `type` are Go
field names that are Lean keywords; they are embedded as `endTime`,
`instanceDetails` and `metaType`. -/

structure PortMapping where
  domain : String := ""
  protocol : String := ""
  port : Int := 0
  deriving DecidableEq, Repr

structure UserInstanceGPU where
  model : String := ""
  ram : Int := 0
  deriving DecidableEq, Repr

structure UserInstanceHardware where
  gpus : List UserInstanceGPU := []
  deriving DecidableEq, Repr

structure UserInstancePrice where
  amount : ℚ := 0
  period : String := ""
  deriving DecidableEq, Repr

structure UserInstancePricing where
  price : UserInstancePrice := {}
  deriving DecidableEq, Repr

structure UserInstanceDetails where
  id : String := ""
  status : String := ""
  hardware : UserInstanceHardware := {}
  pricing : UserInstancePricing := {}
  gpuCount : Int := 0
  deriving DecidableEq, Repr

/-- A spot instance record (`UserInstance` in `instances.go`). -/
structure UserInstance where
  id : String := ""
  start : String := ""
  endTime : Option String := none
  created : String := ""
  sshCommand : String := ""
  portMappings : List PortMapping := []
  instanceDetails : UserInstanceDetails := {}
  deriving DecidableEq, Repr

structure OnDemandGPU where
  count : Int := 0
  deriving DecidableEq, Repr

/-- VM resources block. The Go field `GPUs` is a `map[string]OnDemandGPU`;
it is embedded as an association list whose order stands for the (unordered)
Go map iteration order. -/
structure OnDemandInstanceResources where
  ramGb : Int := 0
  storageGb : Int := 0
  vcpuCount : Int := 0
  gpus : List (String × OnDemandGPU) := []
  deriving DecidableEq, Repr

structure OnDemandInstanceSpecs where
  ramGb : Int := 0
  cpuCount : Int := 0
  cpuModel : String := ""
  gpuCount : Int := 0
  gpuModel : String := ""
  storageGb : Int := 0
  deriving DecidableEq, Repr

structure OnDemandNetworking where
  publicIP : String := ""
  privateIP : String := ""
  deriving DecidableEq, Repr

structure OnDemandPortForward where
  externalPort : Int := 0
  internalPort : Int := 0
  deriving DecidableEq, Repr

structure OnDemandInstanceMeta where
  name : String := ""
  tags : List String := []
  metaType : String := ""
  publicIP : String := ""
  gpuCount : Int := 0
  resources : Option OnDemandInstanceResources := none
  hostnodeID : String := ""
  internalIP : String := ""
  rentalType : String := ""
  sshCommand : String := ""
  portForwards : List OnDemandPortForward := []
  operatingSystem : String := ""
  timestampCreation : String := ""
  subOrder : Option String := none
  nodeCount : Int := 0
  networkType : String := ""
  specsPerNode : Option OnDemandInstanceSpecs := none
  username : String := ""
  nodeNetworking : List OnDemandNetworking := []
  creationTimestamp : String := ""
  deriving DecidableEq, Repr

/-- An on-demand (VM or bare-metal) rental record (`OnDemandInstance`). -/
structure OnDemandInstance where
  id : Int := 0
  createdAt : String := ""
  updatedAt : Option String := none
  deletedAt : Option String := none
  userID : String := ""
  startedAt : String := ""
  terminatedAt : Option String := none
  externalID : String := ""
  rentalProvider : String := ""
  costPerHour : Int := 0
  status : String := ""
  meta : OnDemandInstanceMeta := {}
  deriving DecidableEq, Repr

/-! ## Timestamp normalizer (`calculateUptime`, `formatDuration`) -/

/-- `formatDuration` from `instances.go`, at second granularity:
`days := int(d.Hours())/24`, `hours := int(d.Hours())%24`,
`minutes := int(d.Minutes())%60`, negative durations render as "N/A". -/
def formatDuration (d : Int) : String :=
  if d < 0 then "N/A"
  else
    let days := d / 3600 / 24
    let hours := d / 3600 % 24
    let minutes := d / 60 % 60
    if days > 0 then itoa days ++ "d " ++ itoa hours ++ "h"
    else if hours > 0 then itoa hours ++ "h " ++ itoa minutes ++ "m"
    else itoa minutes ++ "m"

/-- `calculateUptime` from `instances.go`. `parse` abstracts the four-format
`time.Parse` fallback chain (its first success, as seconds since an epoch)
and `now` abstracts `time.Now()`: an unparseable start yields "N/A"; the end
is the end string's parse when the string is present, non-empty and parseable,
and `now` otherwise. -/
def calculateUptime (parse : String → Option Int) (now : Int)
    (startTime : String) (endTime : Option String) : String :=
  match parse startTime with
  | none => "N/A"
  | some start =>
    let e : Int :=
      match endTime with
      | some es => if es ≠ "" then (parse es).getD now else now
      | none => now
    formatDuration (e - start)

/-! ## GPU model cleanup (`strings.ReplaceAll` chain) -/

/-- Non-overlapping leftmost replacement of `pat` by `rep`, fuelled; with
`fuel ≥ s.length` this is Go's `strings.ReplaceAll` for non-empty `pat`. -/
def replChars (pat rep : List Char) : Nat → List Char → List Char
  | 0, s => s
  | _ + 1, [] => []
  | fuel + 1, c :: rest =>
    if pat.isPrefixOf (c :: rest) then
      rep ++ replChars pat rep fuel ((c :: rest).drop pat.length)
    else
      c :: replChars pat rep fuel rest

/-- Go's `strings.ReplaceAll s pat rep` (for non-empty `pat`). -/
def strReplaceAll (s pat rep : String) : String :=
  ⟨replChars pat.data rep.data s.data.length s.data⟩

/-- Whether `pat` occurs as a contiguous run inside `s`. -/
def containsSeq (pat : List Char) : List Char → Bool
  | [] => pat.isPrefixOf []
  | c :: rest => pat.isPrefixOf (c :: rest) || containsSeq pat rest

/-- The GPU-model cleanup pass of `printOnDemandInstanceDetails` /
`printSpotInstancesTable` / `printOnDemandInstancesTable`. -/
def cleanGPUModel (s : String) : String :=
  strReplaceAll (strReplaceAll (strReplaceAll s "NVIDIA-GeForce-" "") "NVIDIA-" "")
    "h100-sxm5-80gb" "H100-SXM5-80GB"

/-! ## Instance registry (`showInstanceDetails` lookup) -/

inductive InstanceLookup where
  | spotFound : UserInstance → InstanceLookup
  | vmFound : OnDemandInstance → InstanceLookup
  | bmFound : OnDemandInstance → InstanceLookup
  deriving DecidableEq, Repr

/-- The lookup performed by `showInstanceDetails` in `instances.go`: spot
records first (string equality on the spot ID), then VM records, then
bare-metal records, each matched by `strconv.Itoa(instance.ID) == instanceID`;
the first match is returned. -/
def findByID (spots : List UserInstance) (vms bms : List OnDemandInstance)
    (instanceID : String) : Option InstanceLookup :=
  match spots.find? (fun i => i.id == instanceID) with
  | some i => some (.spotFound i)
  | none =>
    match vms.find? (fun i => itoa i.id == instanceID) with
    | some i => some (.vmFound i)
    | none =>
      match bms.find? (fun i => itoa i.id == instanceID) with
      | some i => some (.bmFound i)
      | none => none

/-- Modelled from the spec: the lookup as §4.3 words it, matching VM and
bare-metal records by "integer-ID match after parsing the input as an
integer" instead of by comparing against the canonical rendering; used only
to compare against `findByID` as the code has it. -/
def findByIDSpecParse (spots : List UserInstance) (vms bms : List OnDemandInstance)
    (instanceID : String) : Option InstanceLookup :=
  match spots.find? (fun i => i.id == instanceID) with
  | some i => some (.spotFound i)
  | none =>
    match atoi instanceID with
    | none => none
    | some n =>
      match vms.find? (fun i => i.id == n) with
      | some i => some (.vmFound i)
      | none =>
        match bms.find? (fun i => i.id == n) with
        | some i => some (.bmFound i)
        | none => none

/-! ## Terminate routing (`terminate.go`) -/

/-- `findOnDemandInstanceType`: the two arguments are the results of the
lightweight ID-only fetches of the VM and bare-metal collections; a fetch
error makes the corresponding membership loop be skipped (`if err == nil`). -/
def findOnDemandInstanceType (vmFetch bmFetch : Except String (List Int))
    (rentalID : Int) : Except String String :=
  let vmHit := match vmFetch with
    | .ok l => l.contains rentalID
    | .error _ => false
  if vmHit then .ok "vm"
  else
    let bmHit := match bmFetch with
      | .ok l => l.contains rentalID
      | .error _ => false
    if bmHit then .ok "bare-metal"
    else .error ("instance with ID " ++ itoa rentalID ++
      " not found in either VM or bare-metal instances")

/-- Endpoint selection in `terminateOnDemandInstance`. -/
def onDemandEndpoint (instanceType : String) : String :=
  if instanceType = "vm" then
    "https://api.hyperbolic.xyz/v2/marketplace/virtual-machine-rentals/terminate"
  else
    "https://api.hyperbolic.xyz/v2/marketplace/bare-metal-rentals/terminate"

/-- The outward-visible dispatch of a terminate request: either a POST of the
string ID to the spot terminate endpoint, or a POST of the numeric rental ID
to one of the two on-demand terminate endpoints. -/
inductive TerminateCall where
  | spotCall : String → TerminateCall
  | onDemandCall : String → Int → TerminateCall
  deriving DecidableEq, Repr

/-- `terminateInstance` from `terminate.go`: an ID that `strconv.Atoi` accepts
takes the on-demand path (routing by `findOnDemandInstanceType`), any other ID
is sent to the spot terminate endpoint. -/
def terminateInstance (vmFetch bmFetch : Except String (List Int))
    (instanceID : String) : Except String TerminateCall :=
  match atoi instanceID with
  | some rentalID =>
    match findOnDemandInstanceType vmFetch bmFetch rentalID with
    | .ok t => .ok (.onDemandCall (onDemandEndpoint t) rentalID)
    | .error e => .error ("failed to find instance: " ++ e)
  | none => .ok (.spotCall instanceID)

/-! ## Aggregate listing (`instancesCmd` fetch/parse pipeline) -/

/-- `fetchOnDemandInstances`: VM fetch, then bare-metal fetch; either failure
aborts. -/
def fetchOnDemandInstances (vmFetch bmFetch : Except String (List OnDemandInstance)) :
    Except String (List OnDemandInstance × List OnDemandInstance) :=
  match vmFetch with
  | .error e => .error ("error fetching VM instances: " ++ e)
  | .ok vms =>
    match bmFetch with
    | .error e => .error ("error fetching bare-metal instances: " ++ e)
    | .ok bms => .ok (vms, bms)

/-- The fetch/parse pipeline of the `instances` command: spot fetch, then the
two on-demand fetches, then the structural JSON parse of the spot body
(abstracted as `parseSpot`); the first failure aborts the whole aggregate. -/
def instancesAggregate (spotFetch : Except String String)
    (parseSpot : String → Except String (List UserInstance))
    (vmFetch bmFetch : Except String (List OnDemandInstance)) :
    Except String (List UserInstance × List OnDemandInstance × List OnDemandInstance) :=
  match spotFetch with
  | .error e => .error e
  | .ok raw =>
    match fetchOnDemandInstances vmFetch bmFetch with
    | .error e => .error e
    | .ok (vms, bms) =>
      match parseSpot raw with
      | .error e => .error e
      | .ok spots => .ok (spots, vms, bms)

/-! ## Resource descriptor extraction: status, SSH, GPU counts, prices -/

/-- The "instance is still starting up" status test used by the SSH fallback
branches: case-insensitive membership in
{pending, starting, provisioning, initializing}. -/
def isStartingStatus (status : String) : Bool :=
  let st := toLowerStr status
  st == "pending" || st == "starting" || st == "provisioning" || st == "initializing"

/-- The SSH block printed by `printOnDemandInstanceDetails` (lines 600-628 of
`instances.go`), as the exact text emitted: explicit command, else per-node
`ssh user@ip` lines, else bare public IP with the generic `user` name, else a
status-dependent placeholder. -/
def sshDetailsBlock (inst : OnDemandInstance) : String :=
  if inst.meta.sshCommand ≠ "" then
    "SSH Command: " ++ inst.meta.sshCommand
  else if inst.meta.nodeNetworking.length > 0 ∧ inst.meta.username ≠ "" then
    match inst.meta.nodeNetworking with
    | [n] => "SSH Command: ssh " ++ inst.meta.username ++ "@" ++ n.publicIP
    | ns =>
      "SSH Commands:\n" ++ String.intercalate "\n"
        (ns.mapIdx (fun i n =>
          "  Node " ++ itoa (i + 1) ++ ": ssh " ++ inst.meta.username ++ "@" ++ n.publicIP))
  else if inst.meta.publicIP ≠ "" then
    "SSH Command: ssh user@" ++ inst.meta.publicIP
  else if isStartingStatus inst.status then
    "SSH Command: Available when ready"
  else
    "SSH Command: SSH details not available"

/-- The SSH COMMAND cell of a VM row in `printOnDemandInstancesTable`: the
inline command when present, else only the status placeholders (no node
networking or public-IP fallback on this path). -/
def sshTableVM (inst : OnDemandInstance) : String :=
  if inst.meta.sshCommand ≠ "" then inst.meta.sshCommand
  else if isStartingStatus inst.status then "Available when ready"
  else "SSH details not available"

/-- The SSH COMMAND cell of a bare-metal row in `printOnDemandInstancesTable`
(lines 828-851): node networking with a shared username when present, else
only the status placeholders (no inline-command or public-IP fallback on this
path). -/
def sshTableBM (inst : OnDemandInstance) : String :=
  if inst.meta.nodeNetworking.length > 0 ∧ inst.meta.username ≠ "" then
    match inst.meta.nodeNetworking with
    | [n] => "ssh " ++ inst.meta.username ++ "@" ++ n.publicIP
    | ns =>
      String.intercalate "\n"
        (ns.map (fun n => "ssh " ++ inst.meta.username ++ "@" ++ n.publicIP))
  else if isStartingStatus inst.status then "Available when ready"
  else "SSH details not available"

/-- Modelled from the spec: the §4.2 SSH resolution order (a)-(e), producing
the access string itself; used to compare the two table renderers against the
specified chain. -/
def sshSpecResolve (inst : OnDemandInstance) : String :=
  if inst.meta.sshCommand ≠ "" then inst.meta.sshCommand
  else if inst.meta.nodeNetworking.length > 0 ∧ inst.meta.username ≠ "" then
    match inst.meta.nodeNetworking with
    | [n] => "ssh " ++ inst.meta.username ++ "@" ++ n.publicIP
    | ns =>
      String.intercalate "\n"
        (ns.mapIdx (fun i n =>
          "Node " ++ itoa (i + 1) ++ ": ssh " ++ inst.meta.username ++ "@" ++ n.publicIP))
  else if inst.meta.publicIP ≠ "" then "ssh user@" ++ inst.meta.publicIP
  else if isStartingStatus inst.status then "Available when ready"
  else "SSH details not available"

/-- The GPU-count computation of `printOnDemandInstanceDetails` (lines
528-545): `(per-branch count, total)`; bare-metal takes the per-node spec
count times the node count, VMs sum the resources map, and a zero per-branch
count falls back to the flat `meta.gpu_count` for both figures. -/
def detailGpuCounts (inst : OnDemandInstance) : Int × Int :=
  let gt : Int × Int :=
    match inst.meta.specsPerNode with
    | some sp => (sp.gpuCount, sp.gpuCount * inst.meta.nodeCount)
    | none =>
      match inst.meta.resources with
      | some r =>
        let s := (r.gpus.map (fun p => p.2.count)).sum
        (s, s)
      | none => (0, 0)
  if gt.1 = 0 then (inst.meta.gpuCount, inst.meta.gpuCount) else gt

/-- The GPU line printed by `printOnDemandInstanceDetails` (lines 547-554):
the `Total GPUs: t (g×n)` header when `node_count > 1`, else `GPU Count: t`. -/
def detailGpuLine (inst : OnDemandInstance) : String :=
  let gt := detailGpuCounts inst
  if inst.meta.nodeCount > 1 then
    "Total GPUs: " ++ itoa gt.2 ++ " (" ++ itoa gt.1 ++ "×" ++ itoa inst.meta.nodeCount ++ ")"
  else
    "GPU Count: " ++ itoa gt.2

/-- The COUNT cell of a bare-metal row in `printOnDemandInstancesTable`
(lines 810-871): the per-node spec count, rendered `g×n` when
`node_count > 1`. -/
def tableGpuCountBM (inst : OnDemandInstance) : String :=
  let g : Int :=
    match inst.meta.specsPerNode with
    | some sp => sp.gpuCount
    | none => 0
  if inst.meta.nodeCount > 1 then itoa g ++ "×" ++ itoa inst.meta.nodeCount
  else itoa g

/-! ## Price derivation (`printSpotInstanceDetails` line 492,
`printOnDemandInstanceDetails` line 590) -/

/-- Spot dollar amount: `(Pricing.Price.Amount / 100.0) * float64(GPUCount)`. -/
def spotDollarAmount (inst : UserInstance) : ℚ :=
  inst.instanceDetails.pricing.price.amount / 100 * inst.instanceDetails.gpuCount

/-- On-demand dollar amount: `float64(CostPerHour) / 100.0` — no GPU-count
factor. -/
def onDemandDollarAmount (inst : OnDemandInstance) : ℚ :=
  (inst.costPerHour : ℚ) / 100

/-- Two-digit zero-padded rendering of a cents remainder. -/
def pad2 (n : Int) : String :=
  if n < 10 then "0" ++ itoa n else itoa n

/-- `fmt.Sprintf("$%.2f/hr", q)` for a non-negative amount that is a whole
number of cents (every amount the claims exercise; Go's float64 pipeline is
exact at this granularity). -/
def priceDisplay (q : ℚ) : String :=
  let c : Int := round (q * 100)
  "$" ++ itoa (c / 100) ++ "." ++ pad2 (c % 100) ++ "/hr"

/-- The PRICE text of the spot detail view and spot table row. -/
def spotPriceDisplay (inst : UserInstance) : String :=
  priceDisplay (spotDollarAmount inst)

/-- The PRICE text of the on-demand detail view and table rows. -/
def onDemandPriceDisplay (inst : OnDemandInstance) : String :=
  priceDisplay (onDemandDollarAmount inst)

/-! ## Helper lemmas: decimal rendering and parsing -/

theorem digitVal_char_ofNat {n : Nat} (h : n < 10) :
    digitVal (Char.ofNat (48 + n)) = some n := by
  interval_cases n <;> decide

theorem parseDigitsCore_append (l1 l2 : List Char) (acc v : Nat)
    (h : parseDigitsCore acc l1 = some v) :
    parseDigitsCore acc (l1 ++ l2) = parseDigitsCore v l2 := by
  induction l1 generalizing acc with
  | nil =>
    simp [parseDigitsCore] at h
    subst h; rfl
  | cons c rest ih =>
    simp only [parseDigitsCore, List.cons_append] at h ⊢
    cases hd : digitVal c with
    | none => rw [hd] at h; exact absurd h (by simp)
    | some d => rw [hd] at h; exact ih _ h

theorem parseDigitsCore_natDigitsAux (fuel : Nat) :
    ∀ n acc, n < fuel →
      parseDigitsCore acc (natDigitsAux fuel n) =
        some (acc * 10 ^ (natDigitsAux fuel n).length + n) := by
  induction fuel with
  | zero => intro n acc h; omega
  | succ fuel ih =>
    intro n acc h
    by_cases hn : n < 10
    · simp only [natDigitsAux, if_pos hn, parseDigitsCore, digitVal_char_ofNat hn,
        List.length_singleton]
      norm_num
    · have hrec : n / 10 < fuel := by omega
      simp only [natDigitsAux, if_neg hn]
      have h1 := ih (n / 10) acc hrec
      rw [parseDigitsCore_append _ _ _ _ h1]
      have hm : n % 10 < 10 := by omega
      simp only [parseDigitsCore, digitVal_char_ofNat hm, List.length_append,
        List.length_singleton]
      congr 1
      have : 10 ^ ((natDigitsAux fuel (n / 10)).length + 1) =
          10 ^ (natDigitsAux fuel (n / 10)).length * 10 := by ring
      rw [this]
      have hdm : n / 10 * 10 + n % 10 = n := by omega
      ring_nf
      omega

theorem natDigitsAux_chars (fuel : Nat) :
    ∀ n c, c ∈ natDigitsAux fuel n → '0' ≤ c ∧ c ≤ '9' := by
  induction fuel with
  | zero => intro n c h; simp [natDigitsAux] at h
  | succ fuel ih =>
    intro n c h
    by_cases hn : n < 10
    · simp only [natDigitsAux, if_pos hn, List.mem_singleton] at h
      subst h
      interval_cases n <;> decide
    · simp only [natDigitsAux, if_neg hn, List.mem_append, List.mem_singleton] at h
      rcases h with h | h
      · exact ih _ _ h
      · subst h
        have hm : n % 10 < 10 := by omega
        interval_cases hx : n % 10 <;> simp [hx]

theorem natDigits_chars {n : Nat} {c : Char} (h : c ∈ natDigits n) :
    '0' ≤ c ∧ c ≤ '9' :=
  natDigitsAux_chars _ _ _ h

theorem natDigits_cons (n : Nat) : ∃ c rest, natDigits n = c :: rest := by
  unfold natDigits natDigitsAux
  by_cases hn : n < 10
  · rw [if_pos hn]
    exact ⟨Char.ofNat (48 + n), [], rfl⟩
  · rw [if_neg hn]
    cases hl : natDigitsAux n (n / 10) with
    | nil => exact ⟨Char.ofNat (48 + n % 10), [], by simp⟩
    | cons c rest => exact ⟨c, rest ++ [Char.ofNat (48 + n % 10)], by simp⟩

/-- Evaluate `atoi` once the string's characters are exposed. -/
theorem atoi_data_cons {s : String} {c : Char} {rest : List Char}
    (h : s.data = c :: rest) :
    atoi s =
      if c = '+' then (parseDigits rest).map (fun m => (m : Int))
      else if c = '-' then (parseDigits rest).map (fun m => -(m : Int))
      else (parseDigits (c :: rest)).map (fun m => (m : Int)) := by
  unfold atoi
  rw [h]

theorem parseDigits_natDigits (n : Nat) : parseDigits (natDigits n) = some n := by
  obtain ⟨c, rest, hc⟩ := natDigits_cons n
  have h := parseDigitsCore_natDigitsAux (n + 1) n 0 (Nat.lt_succ_self n)
  rw [hc]
  have : parseDigitsCore 0 (c :: rest) = some n := by
    rw [← hc]; simpa using h
  simpa [parseDigits] using this

/-- Round trip: Go's `strconv.Atoi` accepts exactly what `strconv.Itoa`
produced and recovers the integer. -/
theorem atoi_itoa (n : Int) : atoi (itoa n) = some n := by
  by_cases hn : n < 0
  · have hd : (itoa n).data = '-' :: natDigits (-n).toNat := by
      simp [itoa, if_pos hn]
    rw [atoi_data_cons hd, if_neg (by decide : ¬('-' : Char) = '+'), if_pos rfl,
      parseDigits_natDigits]
    simp only [Option.map_some', Option.bind_some, Option.bind_eq_bind,
      Option.some_bind, Option.map_eq_map]
    simp
    omega
  · have hd0 : (itoa n).data = natDigits n.toNat := by
      simp [itoa, if_neg hn]
    obtain ⟨c, rest, hc⟩ := natDigits_cons n.toNat
    have hcd := natDigits_chars (n := n.toNat) (c := c) (by rw [hc]; simp)
    have hplus : ¬c = '+' := by
      intro h; subst h; revert hcd; decide
    have hminus : ¬c = '-' := by
      intro h; subst h; revert hcd; decide
    rw [atoi_data_cons (by rw [hd0, hc]), if_neg hplus, if_neg hminus, ← hc,
      parseDigits_natDigits]
    simp
    omega

/-- A string rejected by `strconv.Atoi` is not the canonical rendering of any
integer. -/
theorem ne_itoa_of_atoi_none {s : String} (h : atoi s = none) (n : Int) :
    s ≠ itoa n := by
  intro he
  rw [he, atoi_itoa] at h
  exact Option.noConfusion h

/-- A string accepted by `strconv.Atoi` with value `n` but different from
`itoa n` is not the canonical rendering of any integer at all. -/
theorem ne_itoa_of_atoi_noncanonical {s : String} {n : Int}
    (h : atoi s = some n) (hne : s ≠ itoa n) (m : Int) : s ≠ itoa m := by
  intro he
  rw [he, atoi_itoa] at h
  exact hne (by injection h with h'; rw [he, h'])

/-- Reduce the `%.2f` model to integer-cents arithmetic. -/
theorem priceDisplay_ofCents (c : Int) (q : ℚ) (h : q * 100 = (c : ℚ)) :
    priceDisplay q = "$" ++ itoa (c / 100) ++ "." ++ pad2 (c % 100) ++ "/hr" := by
  unfold priceDisplay
  rw [h, round_intCast]

/-- A string `strconv.Atoi` rejects matches no stringified integer ID. -/
theorem find?_itoa_eq_none_of_atoi_none {l : List OnDemandInstance} {s : String}
    (h : atoi s = none) :
    l.find? (fun i => itoa i.id == s) = none := by
  rw [List.find?_eq_none]
  intro i _ hbeq
  exact ne_itoa_of_atoi_none h i.id (by
    have := eq_of_beq hbeq
    rw [this])

/-- A non-canonical numeric string matches no stringified integer ID. -/
theorem find?_itoa_eq_none_of_noncanonical {l : List OnDemandInstance} {s : String}
    {n : Int} (h : atoi s = some n) (hne : s ≠ itoa n) :
    l.find? (fun i => itoa i.id == s) = none := by
  rw [List.find?_eq_none]
  intro i _ hbeq
  exact ne_itoa_of_atoi_noncanonical h hne i.id (by
    have := eq_of_beq hbeq
    rw [this])

/-- C1 (counterexample): the claim describes the VM/bare-metal match as
"integer-ID match after parsing the input as an integer".  The code instead
compares the input string with `strconv.Itoa(instance.ID)`: on input "007"
(which parses to 7) a VM record with ID 7 is NOT found by `showInstanceDetails`
although the parse-based lookup worded by the spec would find it. -/
theorem C1_lookup_parse_counterexample :
    findByID [] [{ id := 7 }] [] "007" = none ∧
    findByIDSpecParse [] [{ id := 7 }] [] "007" =
      some (.vmFound { id := 7 }) :=
  ⟨rfl, rfl⟩

/-- C1 (amended): the search order is fixed — spot collection first (string-ID
exact match), then VM collection, then bare-metal collection, the VM and
bare-metal collections being matched by comparing the input string with the
canonical decimal rendering of the record's integer ID (not by parsing the
input) — the first match is returned (a VM match shadows any bare-metal match,
so cross-family collisions are not detected or reported), and a non-integer
input string never matches any VM or bare-metal record. -/
theorem C1_lookup_order_amended
    (spots : List UserInstance) (vms bms : List OnDemandInstance) (s : String) :
    (∀ i, spots.find? (fun x => x.id == s) = some i →
      findByID spots vms bms s = some (.spotFound i)) ∧
    (spots.find? (fun x => x.id == s) = none →
      ∀ i, vms.find? (fun x => itoa x.id == s) = some i →
        findByID spots vms bms s = some (.vmFound i)) ∧
    (spots.find? (fun x => x.id == s) = none →
      vms.find? (fun x => itoa x.id == s) = none →
      ∀ i, bms.find? (fun x => itoa x.id == s) = some i →
        findByID spots vms bms s = some (.bmFound i)) ∧
    (spots.find? (fun x => x.id == s) = none →
      vms.find? (fun x => itoa x.id == s) = none →
      bms.find? (fun x => itoa x.id == s) = none →
      findByID spots vms bms s = none) ∧
    (atoi s = none →
      vms.find? (fun x => itoa x.id == s) = none ∧
      bms.find? (fun x => itoa x.id == s) = none) := by
  refine ⟨?_, ?_, ?_, ?_, ?_⟩
  · intro i h
    simp only [findByID, h]
  · intro h0 i h
    simp only [findByID, h0, h]
  · intro h0 h1 i h
    simp only [findByID, h0, h1, h]
  · intro h0 h1 h2
    simp only [findByID, h0, h1, h2]
  · intro h
    exact ⟨find?_itoa_eq_none_of_atoi_none h, find?_itoa_eq_none_of_atoi_none h⟩

theorem C1_lookup_order_amended_witness :
    findByID [] [{ id := 5 }] [{ id := 5 }] "5" = some (.vmFound { id := 5 }) ∧
    findByID [] [{ id := 5 }] [{ id := 5 }] "abc" = none :=
  ⟨(C1_lookup_order_amended [] [{ id := 5 }] [{ id := 5 }] "5").2.1 rfl { id := 5 } rfl,
   by
    have h := (C1_lookup_order_amended [] [{ id := 5 }] [{ id := 5 }] "abc").2.2.2.1
    have hv := (C1_lookup_order_amended [] [{ id := 5 }] [{ id := 5 }] "abc").2.2.2.2 rfl
    exact h rfl hv.1 hv.2⟩

/-- C9: an input string `s` that parses to `n` but is not the canonical
rendering of `n` (such as "007" or "+7") resolves to different targets in the
two operations: the detail lookup compares `s` against stringified IDs and
reports not-found even when a record with ID `n` exists in the VM or
bare-metal collection, while the terminate operation parses `s` and routes the
destructive call to on-demand rental `n`. -/
theorem C9_lookup_terminate_divergence
    (s : String) (n : Int) (spots : List UserInstance)
    (vms bms : List OnDemandInstance) (vmIDs bmIDs : List Int)
    (hparse : atoi s = some n) (hnc : s ≠ itoa n)
    (hspot : ∀ sp ∈ spots, sp.id ≠ s) :
    findByID spots vms bms s = none ∧
    (n ∈ vmIDs →
      terminateInstance (.ok vmIDs) (.ok bmIDs) s =
        .ok (.onDemandCall
          "https://api.hyperbolic.xyz/v2/marketplace/virtual-machine-rentals/terminate" n)) ∧
    (n ∉ vmIDs → n ∈ bmIDs →
      terminateInstance (.ok vmIDs) (.ok bmIDs) s =
        .ok (.onDemandCall
          "https://api.hyperbolic.xyz/v2/marketplace/bare-metal-rentals/terminate" n)) := by
  refine ⟨?_, ?_, ?_⟩
  · have h0 : spots.find? (fun x => x.id == s) = none := by
      rw [List.find?_eq_none]
      intro x hx hbeq
      exact hspot x hx (eq_of_beq hbeq)
    simp only [findByID, h0, find?_itoa_eq_none_of_noncanonical hparse hnc]
  · intro hmem
    have hc : vmIDs.contains n = true := by simp [hmem]
    simp only [terminateInstance, hparse, findOnDemandInstanceType, hc,
      if_pos rfl, onDemandEndpoint]
    rfl
  · intro hnot hmem
    have hc : vmIDs.contains n = false := by simp [hnot]
    have hc2 : bmIDs.contains n = true := by simp [hmem]
    simp only [terminateInstance, hparse, findOnDemandInstanceType, hc, hc2,
      onDemandEndpoint]
    rfl

theorem C9_lookup_terminate_divergence_witness :
    findByID [] [{ id := 7 }] [] "007" = none ∧
    terminateInstance (.ok [7]) (.ok []) "007" =
      .ok (.onDemandCall
        "https://api.hyperbolic.xyz/v2/marketplace/virtual-machine-rentals/terminate" 7) := by
  have h := C9_lookup_terminate_divergence "007" 7 [] [{ id := 7 }] [] [7] []
    rfl (by decide) (by simp)
  exact ⟨h.1, h.2.1 (by simp)⟩

/-- C2: a terminate request whose ID parses as an integer takes the on-demand
path, resolving VM vs bare-metal by membership of the parsed ID in the
ID-only listing of each sub-collection (VM checked first) and dispatching to
that sub-family's terminate endpoint; an ID that does not parse goes to the
spot terminate endpoint; and, when both ID-only fetches succeed, a NotFound
failure is signalled exactly when a numeric ID is in neither listing. -/
theorem C2_terminate_routing (vmIDs bmIDs : List Int) (s : String) :
    (∀ n, atoi s = some n →
      (n ∈ vmIDs →
        terminateInstance (.ok vmIDs) (.ok bmIDs) s =
          .ok (.onDemandCall
            "https://api.hyperbolic.xyz/v2/marketplace/virtual-machine-rentals/terminate" n)) ∧
      (n ∉ vmIDs → n ∈ bmIDs →
        terminateInstance (.ok vmIDs) (.ok bmIDs) s =
          .ok (.onDemandCall
            "https://api.hyperbolic.xyz/v2/marketplace/bare-metal-rentals/terminate" n))) ∧
    (atoi s = none →
      terminateInstance (.ok vmIDs) (.ok bmIDs) s = .ok (.spotCall s)) ∧
    ((∃ e, terminateInstance (.ok vmIDs) (.ok bmIDs) s = .error e) ↔
      (∃ n, atoi s = some n ∧ n ∉ vmIDs ∧ n ∉ bmIDs)) := by
  refine ⟨?_, ?_, ?_⟩
  · intro n hparse
    constructor
    · intro hmem
      have hc : vmIDs.contains n = true := by simp [hmem]
      simp only [terminateInstance, hparse, findOnDemandInstanceType, hc,
        if_pos rfl, onDemandEndpoint]
      rfl
    · intro hnot hmem
      have hc : vmIDs.contains n = false := by simp [hnot]
      have hc2 : bmIDs.contains n = true := by simp [hmem]
      simp only [terminateInstance, hparse, findOnDemandInstanceType, hc, hc2,
        onDemandEndpoint]
      rfl
  · intro hparse
    simp only [terminateInstance, hparse]
  · constructor
    · rintro ⟨e, he⟩
      cases hparse : atoi s with
      | none => rw [terminateInstance, hparse] at he; exact absurd he (by simp)
      | some n =>
        refine ⟨n, rfl, ?_⟩
        by_cases hvm : n ∈ vmIDs
        · have hc : vmIDs.contains n = true := by simp [hvm]
          rw [terminateInstance, hparse] at he
          simp only [findOnDemandInstanceType, hc, if_pos rfl] at he
          exact absurd he (by simp)
        · by_cases hbm : n ∈ bmIDs
          · have hc : vmIDs.contains n = false := by simp [hvm]
            have hc2 : bmIDs.contains n = true := by simp [hbm]
            rw [terminateInstance, hparse] at he
            simp only [findOnDemandInstanceType, hc, hc2] at he
            exact absurd he (by simp)
          · exact ⟨hvm, hbm⟩
    · rintro ⟨n, hparse, hvm, hbm⟩
      have hc : vmIDs.contains n = false := by simp [hvm]
      have hc2 : bmIDs.contains n = false := by simp [hbm]
      refine ⟨"failed to find instance: instance with ID " ++ itoa n ++
        " not found in either VM or bare-metal instances", ?_⟩
      simp only [terminateInstance, hparse, findOnDemandInstanceType, hc, hc2]
      rfl

theorem C2_terminate_routing_witness :
    terminateInstance (.ok [501]) (.ok [777]) "777" =
      .ok (.onDemandCall
        "https://api.hyperbolic.xyz/v2/marketplace/bare-metal-rentals/terminate" 777) ∧
    terminateInstance (.ok [501]) (.ok [777]) "abc123" = .ok (.spotCall "abc123") ∧
    (∃ e, terminateInstance (.ok [501]) (.ok [777]) "9" = .error e) := by
  refine ⟨?_, ?_, ?_⟩
  · exact ((C2_terminate_routing [501] [777] "777").1 777 rfl).2 (by decide) (by decide)
  · exact (C2_terminate_routing [501] [777] "abc123").2.1 rfl
  · exact (C2_terminate_routing [501] [777] "9").2.2.mpr ⟨9, rfl, by decide, by decide⟩

/-- C3: the displayed spot hourly price is (centesimal per-GPU amount ÷ 100) ×
GPU count, and the displayed on-demand hourly price is centesimal cost-per-hour
÷ 100 with no GPU-count factor: for integer-cent amounts the rendered strings
are the corresponding dollars.cents figures, spot amount 150 with 2 GPUs
renders "$3.00/hr", and on-demand costPerHour 149 renders "$1.49/hr" for any
two records with equal costPerHour regardless of their GPU counts. -/
theorem C3_price_rendering :
    (∀ inst : UserInstance, spotDollarAmount inst =
      inst.instanceDetails.pricing.price.amount / 100 * inst.instanceDetails.gpuCount) ∧
    (∀ inst : OnDemandInstance, onDemandDollarAmount inst = (inst.costPerHour : ℚ) / 100) ∧
    (∀ (inst : UserInstance) (a g : Int),
      inst.instanceDetails.pricing.price.amount = (a : ℚ) →
      inst.instanceDetails.gpuCount = g →
      spotPriceDisplay inst =
        "$" ++ itoa (a * g / 100) ++ "." ++ pad2 (a * g % 100) ++ "/hr") ∧
    (∀ inst : OnDemandInstance,
      onDemandPriceDisplay inst =
        "$" ++ itoa (inst.costPerHour / 100) ++ "." ++
          pad2 (inst.costPerHour % 100) ++ "/hr") ∧
    (∀ inst inst' : OnDemandInstance, inst.costPerHour = inst'.costPerHour →
      onDemandPriceDisplay inst = onDemandPriceDisplay inst') ∧
    (∀ inst : UserInstance,
      inst.instanceDetails.pricing.price.amount = 150 →
      inst.instanceDetails.gpuCount = 2 →
      spotPriceDisplay inst = "$3.00/hr") ∧
    (∀ inst : OnDemandInstance, inst.costPerHour = 149 →
      onDemandPriceDisplay inst = "$1.49/hr") := by
  have hspot : ∀ (inst : UserInstance) (a g : Int),
      inst.instanceDetails.pricing.price.amount = (a : ℚ) →
      inst.instanceDetails.gpuCount = g →
      spotPriceDisplay inst =
        "$" ++ itoa (a * g / 100) ++ "." ++ pad2 (a * g % 100) ++ "/hr" := by
    intro inst a g ha hg
    unfold spotPriceDisplay
    rw [priceDisplay_ofCents (a * g) _ (by
      unfold spotDollarAmount
      rw [ha, hg]
      push_cast
      ring)]
  have hod : ∀ inst : OnDemandInstance,
      onDemandPriceDisplay inst =
        "$" ++ itoa (inst.costPerHour / 100) ++ "." ++
          pad2 (inst.costPerHour % 100) ++ "/hr" := by
    intro inst
    unfold onDemandPriceDisplay
    rw [priceDisplay_ofCents inst.costPerHour _ (by
      unfold onDemandDollarAmount
      field_simp)]
  refine ⟨fun _ => rfl, fun _ => rfl, hspot, hod, ?_, ?_, ?_⟩
  · intro inst inst' h
    rw [hod inst, hod inst', h]
  · intro inst ha hg
    rw [hspot inst 150 2 (by rw [ha]; norm_num) hg]
    rfl
  · intro inst h
    rw [hod inst, h]
    rfl

theorem C3_price_rendering_witness :
    spotPriceDisplay
      { instanceDetails :=
          { pricing := { price := { amount := 150 } }, gpuCount := 2 } } = "$3.00/hr" ∧
    onDemandPriceDisplay { costPerHour := 149, meta := { gpuCount := 8 } } = "$1.49/hr" ∧
    onDemandPriceDisplay { costPerHour := 149, meta := { gpuCount := 8 } } =
      onDemandPriceDisplay { costPerHour := 149, meta := { gpuCount := 1 } } := by
  refine ⟨?_, ?_, ?_⟩
  · exact C3_price_rendering.2.2.2.2.2.1 _ rfl rfl
  · exact C3_price_rendering.2.2.2.2.2.2 _ rfl
  · exact C3_price_rendering.2.2.2.2.1 _ _ rfl

/-- C4 (counterexample): a bare-metal record with node count 4, per-node spec
GPU count 0 and flat metadata GPU count 8 makes the fallback fire: both
figures become 8, the detail view prints "Total GPUs: 8 (8×4)", and the
retained total (8) is NOT the displayed per-node figure times the node count
(32), refuting the claim for this record. -/
theorem C4_bm_gpu_total_counterexample :
    (detailGpuCounts
      { meta := { gpuCount := 8, nodeCount := 4,
                  specsPerNode := some { gpuCount := 0 } } }).2 = 8 ∧
    detailGpuLine
      { meta := { gpuCount := 8, nodeCount := 4,
                  specsPerNode := some { gpuCount := 0 } } } =
      "Total GPUs: 8 (8×4)" ∧
    (detailGpuCounts
      { meta := { gpuCount := 8, nodeCount := 4,
                  specsPerNode := some { gpuCount := 0 } } }).2 ≠
    (detailGpuCounts
      { meta := { gpuCount := 8, nodeCount := 4,
                  specsPerNode := some { gpuCount := 0 } } }).1 *
      (4 : Int) := by
  refine ⟨rfl, rfl, by decide⟩

/-- C4 (amended): for every bare-metal record with node count > 1 whose
per-node spec GPU count is non-zero, the total equals per-node count × node
count, both figures are retained, the detail view prints
"Total GPUs: {total} ({per}×{nodes})", and the table COUNT cell renders
"{per}×{nodes}"; when the per-node spec count is zero the flat metadata
fallback replaces both figures without node multiplication. -/
theorem C4_bm_gpu_total_amended
    (inst : OnDemandInstance) (sp : OnDemandInstanceSpecs)
    (hsp : inst.meta.specsPerNode = some sp) (hg : sp.gpuCount ≠ 0)
    (hn : inst.meta.nodeCount > 1) :
    detailGpuCounts inst = (sp.gpuCount, sp.gpuCount * inst.meta.nodeCount) ∧
    detailGpuLine inst =
      "Total GPUs: " ++ itoa (sp.gpuCount * inst.meta.nodeCount) ++
        " (" ++ itoa sp.gpuCount ++ "×" ++ itoa inst.meta.nodeCount ++ ")" ∧
    tableGpuCountBM inst = itoa sp.gpuCount ++ "×" ++ itoa inst.meta.nodeCount := by
  have hcounts : detailGpuCounts inst = (sp.gpuCount, sp.gpuCount * inst.meta.nodeCount) := by
    simp only [detailGpuCounts, hsp, if_neg hg]
  refine ⟨hcounts, ?_, ?_⟩
  · simp only [detailGpuLine, hcounts, if_pos hn]
  · simp only [tableGpuCountBM, hsp, if_pos hn]

theorem C4_bm_gpu_total_amended_witness :
    detailGpuCounts
      { meta := { nodeCount := 4, specsPerNode := some { gpuCount := 8 } } } = (8, 32) ∧
    detailGpuLine
      { meta := { nodeCount := 4, specsPerNode := some { gpuCount := 8 } } } =
      "Total GPUs: 32 (8×4)" ∧
    tableGpuCountBM
      { meta := { nodeCount := 4, specsPerNode := some { gpuCount := 8 } } } = "8×4" := by
  have h := C4_bm_gpu_total_amended
    { meta := { nodeCount := 4, specsPerNode := some { gpuCount := 8 } } }
    { gpuCount := 8 } rfl (by decide) (by decide)
  refine ⟨h.1, ?_, ?_⟩
  · rw [h.2.1]; rfl
  · rw [h.2.2]; rfl

/-- C10: a bare-metal record whose per-node specs report a positive GPU count
but whose node-count field is absent/zero gets total GPU count
per-node × 0 = 0 and the detail view prints "GPU Count: 0"; the flat metadata
fallback does not fire because it is keyed on the per-node figure being zero,
not on the total being zero. -/
theorem C10_zero_node_count
    (inst : OnDemandInstance) (sp : OnDemandInstanceSpecs)
    (hsp : inst.meta.specsPerNode = some sp) (hg : 0 < sp.gpuCount)
    (hn : inst.meta.nodeCount = 0) :
    detailGpuCounts inst = (sp.gpuCount, 0) ∧
    detailGpuLine inst = "GPU Count: 0" := by
  have hcounts : detailGpuCounts inst = (sp.gpuCount, 0) := by
    simp only [detailGpuCounts, hsp, hn, if_neg (by omega : ¬sp.gpuCount = 0), mul_zero]
  refine ⟨hcounts, ?_⟩
  simp only [detailGpuLine, hcounts, hn]
  rfl

theorem C10_zero_node_count_witness :
    detailGpuCounts
      { meta := { gpuCount := 5, specsPerNode := some { gpuCount := 3 } } } = (3, 0) ∧
    detailGpuLine
      { meta := { gpuCount := 5, specsPerNode := some { gpuCount := 3 } } } =
      "GPU Count: 0" :=
  C10_zero_node_count
    { meta := { gpuCount := 5, specsPerNode := some { gpuCount := 3 } } }
    { gpuCount := 3 } rfl (by decide) rfl

/-- C6 (counterexample): in the terminate-routing membership check, a failed
VM-collection fetch does not abort the operation or propagate the failure —
the routing still succeeds using only the bare-metal listing, so a failure in
the fetch of one collection can be silently dropped while real data from the
other is used. -/
theorem C6_propagation_counterexample :
    findOnDemandInstanceType (.error "connection refused") (.ok [5]) 5 =
      .ok "bare-metal" := rfl

/-- C6 (amended): in the aggregate listing, any failure of the spot fetch, VM
fetch, bare-metal fetch or spot structural parse aborts the whole aggregate
and propagates that failure, and a successful aggregate carries exactly the
three fetched collections; in the terminate-routing membership check, however,
a failed sub-collection ID fetch is silently treated as an empty collection
(the routing can still succeed on the other listing, or report not-found
without propagating the fetch failure). -/
theorem C6_propagation_amended :
    (∀ (sf : Except String String) (p : String → Except String (List UserInstance))
        (vf bf : Except String (List OnDemandInstance)) spots vms bms,
      instancesAggregate sf p vf bf = .ok (spots, vms, bms) →
      vf = .ok vms ∧ bf = .ok bms ∧ ∃ raw, sf = .ok raw ∧ p raw = .ok spots) ∧
    (∀ (e : String) p vf bf, instancesAggregate (.error e) p vf bf = .error e) ∧
    (∀ (raw : String) p (e : String) bf,
      instancesAggregate (.ok raw) p (.error e) bf =
        .error ("error fetching VM instances: " ++ e)) ∧
    (∀ (raw : String) p vms (e : String),
      instancesAggregate (.ok raw) p (.ok vms) (.error e) =
        .error ("error fetching bare-metal instances: " ++ e)) ∧
    (∀ (raw : String) p vms bms (e : String), p raw = .error e →
      instancesAggregate (.ok raw) p (.ok vms) (.ok bms) = .error e) ∧
    (∀ (e : String) bf id,
      findOnDemandInstanceType (.error e) bf id =
        findOnDemandInstanceType (.ok []) bf id) ∧
    (∀ vf (e : String) id,
      findOnDemandInstanceType vf (.error e) id =
        findOnDemandInstanceType vf (.ok []) id) := by
  refine ⟨?_, ?_, ?_, ?_, ?_, ?_, ?_⟩
  · intro sf p vf bf spots vms bms h
    cases sf with
    | error e => exact absurd h (by simp [instancesAggregate])
    | ok raw =>
      cases vf with
      | error e => exact absurd h (by simp [instancesAggregate, fetchOnDemandInstances])
      | ok vms' =>
        cases bf with
        | error e => exact absurd h (by simp [instancesAggregate, fetchOnDemandInstances])
        | ok bms' =>
          cases hp : p raw with
          | error e =>
            rw [instancesAggregate] at h
            simp only [fetchOnDemandInstances, hp] at h
            exact absurd h (by simp)
          | ok spots' =>
            rw [instancesAggregate] at h
            simp only [fetchOnDemandInstances, hp] at h
            simp only [Except.ok.injEq, Prod.mk.injEq] at h
            obtain ⟨h1, h2, h3⟩ := h
            exact ⟨by rw [h2], by rw [h3], raw, rfl, by rw [hp, h1]⟩
  · intro e p vf bf; rfl
  · intro raw p e bf; rfl
  · intro raw p vms e; rfl
  · intro raw p vms bms e hp
    simp only [instancesAggregate, fetchOnDemandInstances, hp]
  · intro e bf id
    simp only [findOnDemandInstanceType, List.contains, List.elem]
  · intro vf e id
    simp only [findOnDemandInstanceType, List.contains, List.elem]

theorem C6_propagation_amended_witness :
    instancesAggregate (.ok "{}") (fun _ => .ok []) (.error "timeout") (.ok []) =
      .error "error fetching VM instances: timeout" ∧
    instancesAggregate (.error "401") (fun _ => .ok []) (.ok []) (.ok []) =
      .error "401" ∧
    (instancesAggregate (.ok "{}") (fun _ => .ok [{ id := "a" }]) (.ok []) (.ok []) =
        .ok ([{ id := "a" }], [], []) →
      (.ok [] : Except String (List OnDemandInstance)) = .ok []) := by
  refine ⟨?_, ?_, ?_⟩
  · exact C6_propagation_amended.2.2.1 "{}" (fun _ => .ok []) "timeout" (.ok [])
  · exact C6_propagation_amended.2.1 "401" (fun _ => .ok []) (.ok []) (.ok [])
  · intro h
    exact (C6_propagation_amended.1 _ _ _ _ _ _ _ h).1

/-! ## Helper lemmas: `strings.ReplaceAll` model -/

theorem replChars_nil (pat rep : List Char) (fuel : Nat) :
    replChars pat rep fuel [] = [] := by
  cases fuel <;> rfl

theorem replChars_of_not_contains {pat rep : List Char} (fuel : Nat) :
    ∀ s : List Char, containsSeq pat s = false → replChars pat rep fuel s = s := by
  induction fuel with
  | zero => intro s _; rfl
  | succ fuel ih =>
    intro s h
    cases s with
    | nil => rfl
    | cons c rest =>
      rw [containsSeq, Bool.or_eq_false_iff] at h
      simp only [replChars, h.1, Bool.false_eq_true, if_false]
      rw [ih rest h.2]

theorem isPrefixOf_append_self (pat t : List Char) :
    pat.isPrefixOf (pat ++ t) = true :=
  List.isPrefixOf_iff_prefix.mpr (List.prefix_append pat t)

theorem replChars_fuel {pat rep : List Char} (hp : pat ≠ []) :
    ∀ (f₁ f₂ : Nat) (s : List Char), s.length ≤ f₁ → s.length ≤ f₂ →
      replChars pat rep f₁ s = replChars pat rep f₂ s := by
  intro f₁
  induction f₁ with
  | zero =>
    intro f₂ s h1 _
    have : s = [] := List.length_eq_zero.mp (by omega)
    subst this
    rw [replChars_nil, replChars_nil]
  | succ f₁ ih =>
    intro f₂ s h1 h2
    cases s with
    | nil => rw [replChars_nil, replChars_nil]
    | cons c rest =>
      have hpl : 0 < pat.length := List.length_pos.mpr hp
      have hrl : rest.length + 1 = (c :: rest).length := rfl
      cases f₂ with
      | zero => simp at h2
      | succ g =>
        simp only [replChars]
        by_cases hpre : pat.isPrefixOf (c :: rest) = true
        · simp only [hpre, if_true]
          congr 1
          apply ih
          · simp only [List.length_drop, List.length_cons]
            simp only [List.length_cons] at h1
            omega
          · simp only [List.length_drop, List.length_cons]
            simp only [List.length_cons] at h2
            omega
        · simp only [hpre, Bool.false_eq_true, if_false]
          congr 1
          apply ih
          · simp only [List.length_cons] at h1; omega
          · simp only [List.length_cons] at h2; omega

theorem replChars_pat_append {pat rep : List Char} (hp : pat ≠ []) (t : List Char)
    (fuel : Nat) (hf : pat.length + t.length ≤ fuel) :
    replChars pat rep fuel (pat ++ t) = rep ++ replChars pat rep t.length t := by
  have hpl : 0 < pat.length := List.length_pos.mpr hp
  cases fuel with
  | zero => omega
  | succ g =>
    obtain ⟨p, ps, hps⟩ : ∃ p ps, pat = p :: ps := by
      cases pat with
      | nil => exact absurd rfl hp
      | cons p ps => exact ⟨p, ps, rfl⟩
    have hcons : pat ++ t = p :: (ps ++ t) := by rw [hps]; rfl
    rw [hcons]
    simp only [replChars, ← hcons, isPrefixOf_append_self, if_true, List.drop_left]
    congr 1
    apply replChars_fuel hp
    · have hlen : (pat ++ t).length = pat.length + t.length := List.length_append pat t
      omega
    · exact le_refl _

theorem containsSeq_append_false {pat : List Char} :
    ∀ {l r : List Char}, containsSeq pat (l ++ r) = false → containsSeq pat r = false := by
  intro l
  induction l with
  | nil => intro r h; exact h
  | cons c rest ih =>
    intro r h
    rw [List.cons_append, containsSeq, Bool.or_eq_false_iff] at h
    exact ih h.2

theorem strReplaceAll_not_contains {s pat rep : String}
    (h : containsSeq pat.data s.data = false) :
    strReplaceAll s pat rep = s := by
  unfold strReplaceAll
  rw [replChars_of_not_contains _ _ h]

theorem strReplaceAll_append_self (pat rep t : String) (hp : pat.data ≠ []) :
    strReplaceAll (pat ++ t) pat rep = rep ++ strReplaceAll t pat rep := by
  unfold strReplaceAll
  have hd : (pat ++ t).data = pat.data ++ t.data := String.data_append pat t
  rw [hd, List.length_append, replChars_pat_append hp t.data _ (le_refl _)]
  rfl

theorem empty_append_str (s : String) : "" ++ s = s := by
  cases s
  rfl

/-- C7: the cleanup pass on a resolved GPU model string first strips the
vendor tokens "NVIDIA-GeForce-" and then "NVIDIA-", then rewrites the
lowercase SKU token "h100-sxm5-80gb" to "H100-SXM5-80GB", and leaves a string
containing none of the three tokens unchanged; in particular
"NVIDIA-GeForce-h100-sxm5-80gb" becomes "H100-SXM5-80GB". -/
theorem C7_gpu_model_cleanup :
    (∀ s : String,
      containsSeq "NVIDIA-GeForce-".data s.data = false →
      containsSeq "NVIDIA-".data s.data = false →
      containsSeq "h100-sxm5-80gb".data s.data = false →
      cleanGPUModel s = s) ∧
    (∀ t : String, cleanGPUModel ("NVIDIA-GeForce-" ++ t) = cleanGPUModel t) ∧
    (∀ t : String,
      containsSeq "NVIDIA-GeForce-".data ("NVIDIA-" ++ t).data = false →
      cleanGPUModel ("NVIDIA-" ++ t) = cleanGPUModel t) ∧
    cleanGPUModel "NVIDIA-GeForce-h100-sxm5-80gb" = "H100-SXM5-80GB" ∧
    cleanGPUModel "h100-sxm5-80gb" = "H100-SXM5-80GB" := by
  refine ⟨?_, ?_, ?_, rfl, rfl⟩
  · intro s h1 h2 h3
    unfold cleanGPUModel
    rw [strReplaceAll_not_contains h1, strReplaceAll_not_contains h2,
      strReplaceAll_not_contains h3]
  · intro t
    unfold cleanGPUModel
    rw [strReplaceAll_append_self _ _ _ (by decide), empty_append_str]
  · intro t h
    unfold cleanGPUModel
    have ht : containsSeq "NVIDIA-GeForce-".data t.data = false := by
      rw [String.data_append] at h
      exact containsSeq_append_false h
    rw [strReplaceAll_not_contains h, strReplaceAll_not_contains ht,
      strReplaceAll_append_self _ _ _ (by decide), empty_append_str]

theorem C7_gpu_model_cleanup_witness :
    cleanGPUModel "RTX-A6000" = "RTX-A6000" ∧
    cleanGPUModel ("NVIDIA-GeForce-" ++ "RTX-4090") = cleanGPUModel "RTX-4090" ∧
    cleanGPUModel ("NVIDIA-" ++ "A100") = cleanGPUModel "A100" := by
  refine ⟨?_, ?_, ?_⟩
  · exact C7_gpu_model_cleanup.1 "RTX-A6000" (by decide) (by decide) (by decide)
  · exact C7_gpu_model_cleanup.2.1 "RTX-4090"
  · exact C7_gpu_model_cleanup.2.2.1 "A100" (by decide)

/-! ## Helper lemmas: duration rendering -/

theorem itoa_nonneg_digits {x : Int} (hx : 0 ≤ x) {c : Char}
    (h : c ∈ (itoa x).data) : '0' ≤ c ∧ c ≤ '9' := by
  unfold itoa at h
  rw [if_neg (by omega : ¬x < 0)] at h
  exact natDigits_chars h

theorem no_d_in_itoa {x : Int} (hx : 0 ≤ x) : 'd' ∉ (itoa x).data := by
  intro hmem
  have h := itoa_nonneg_digits hx hmem
  exact absurd h.2 (by decide)

theorem formatDuration_neg {d : Int} (h : d < 0) : formatDuration d = "N/A" := by
  simp only [formatDuration, if_pos h]

theorem formatDuration_minutes {d : Int} (h0 : 0 ≤ d) (h1 : d < 3600) :
    formatDuration d = itoa (d / 60) ++ "m" := by
  have hm : d / 60 % 60 = d / 60 := by omega
  simp only [formatDuration, if_neg (by omega : ¬d < 0),
    if_neg (by omega : ¬d / 3600 / 24 > 0), if_neg (by omega : ¬d / 3600 % 24 > 0), hm]

theorem formatDuration_hours {d : Int} (h0 : 3600 ≤ d) (h1 : d < 86400) :
    formatDuration d = itoa (d / 3600) ++ "h " ++ itoa (d / 60 % 60) ++ "m" := by
  have hh : d / 3600 % 24 = d / 3600 := by omega
  simp only [formatDuration, if_neg (by omega : ¬d < 0),
    if_neg (by omega : ¬d / 3600 / 24 > 0), hh, if_pos (by omega : d / 3600 > 0)]

theorem formatDuration_days {d : Int} (h : 86400 ≤ d) :
    formatDuration d =
      itoa (d / 3600 / 24) ++ "d " ++ itoa (d / 3600 % 24) ++ "h" := by
  simp only [formatDuration, if_neg (by omega : ¬d < 0),
    if_pos (by omega : d / 3600 / 24 > 0)]

theorem no_d_in_formatDuration {d : Int} (h0 : 0 ≤ d) (h1 : d < 86400) :
    'd' ∉ (formatDuration d).data := by
  intro hmem
  by_cases hh : 3600 ≤ d
  · rw [formatDuration_hours hh h1] at hmem
    simp only [String.data_append, List.mem_append] at hmem
    rcases hmem with ((ha | hb) | hc) | he
    · exact no_d_in_itoa (by omega) ha
    · exact absurd hb (by decide)
    · exact no_d_in_itoa (by omega) hc
    · exact absurd he (by decide)
  · rw [formatDuration_minutes h0 (by omega)] at hmem
    simp only [String.data_append, List.mem_append] at hmem
    rcases hmem with ha | hb
    · exact no_d_in_itoa (by omega) ha
    · exact absurd hb (by decide)

theorem formatDuration_days_iff {d : Int} (h0 : 0 ≤ d) :
    formatDuration d =
      itoa (d / 3600 / 24) ++ "d " ++ itoa (d / 3600 % 24) ++ "h" ↔ 86400 ≤ d := by
  constructor
  · intro heq
    by_contra hlt
    push_neg at hlt
    have hmem : 'd' ∈ (itoa (d / 3600 / 24) ++ "d " ++ itoa (d / 3600 % 24) ++ "h").data := by
      simp only [String.data_append, List.mem_append]
      exact Or.inl (Or.inl (Or.inr (by decide)))
    rw [← heq] at hmem
    exact no_d_in_formatDuration h0 hlt hmem
  · exact formatDuration_days

/-- C5: uptime behaves as the reference definition: an unparseable start
yields "N/A" (never zero or now); the end instant is the end string's parse
when present, non-empty and parseable, and the current wall clock when the
end string is absent, empty, or unparseable; a negative duration yields "N/A"
(never a negative-looking string); a non-negative duration renders as
"{days}d {hours}h" / "{hours}h {minutes}m" / "{minutes}m" by the stated
precedence with truncating division, and the label has the day-hour shape
exactly when the duration is at least 86400 seconds. -/
theorem C5_uptime_behavior :
    (∀ (parse : String → Option Int) (now : Int) (startTime : String)
        (endTime : Option String), parse startTime = none →
      calculateUptime parse now startTime endTime = "N/A") ∧
    (∀ (parse : String → Option Int) (now : Int) (startTime : String)
        (st : Int), parse startTime = some st →
      calculateUptime parse now startTime none = formatDuration (now - st)) ∧
    (∀ (parse : String → Option Int) (now : Int) (startTime : String)
        (st : Int), parse startTime = some st →
      calculateUptime parse now startTime (some "") = formatDuration (now - st)) ∧
    (∀ (parse : String → Option Int) (now : Int) (startTime es : String)
        (st : Int), parse startTime = some st → es ≠ "" → parse es = none →
      calculateUptime parse now startTime (some es) = formatDuration (now - st)) ∧
    (∀ (parse : String → Option Int) (now : Int) (startTime es : String)
        (st e : Int), parse startTime = some st → es ≠ "" → parse es = some e →
      calculateUptime parse now startTime (some es) = formatDuration (e - st)) ∧
    (∀ d : Int, d < 0 → formatDuration d = "N/A") ∧
    (∀ d : Int, 0 ≤ d → d < 3600 → formatDuration d = itoa (d / 60) ++ "m") ∧
    (∀ d : Int, 3600 ≤ d → d < 86400 →
      formatDuration d = itoa (d / 3600) ++ "h " ++ itoa (d / 60 % 60) ++ "m") ∧
    (∀ d : Int, 0 ≤ d →
      (formatDuration d =
        itoa (d / 3600 / 24) ++ "d " ++ itoa (d / 3600 % 24) ++ "h" ↔ 86400 ≤ d)) := by
  refine ⟨?_, ?_, ?_, ?_, ?_, ?_, ?_, ?_, ?_⟩
  · intro parse now startTime endTime h
    simp only [calculateUptime, h]
  · intro parse now startTime st h
    simp only [calculateUptime, h]
  · intro parse now startTime st h
    simp only [calculateUptime, h, ne_eq, not_true_eq_false, if_false]
  · intro parse now startTime es st h hes hp
    simp only [calculateUptime, h, hp, if_pos hes, Option.getD_none]
  · intro parse now startTime es st e h hes hp
    simp only [calculateUptime, h, hp, if_pos hes, Option.getD_some]
  · exact fun d h => formatDuration_neg h
  · exact fun d h0 h1 => formatDuration_minutes h0 h1
  · exact fun d h0 h1 => formatDuration_hours h0 h1
  · exact fun d h0 => formatDuration_days_iff h0

theorem C5_uptime_behavior_witness :
    calculateUptime (fun _ => none) 1000 "garbage" none = "N/A" ∧
    calculateUptime (fun s => if s = "t0" then some 100 else none) 90100 "t0" none =
      formatDuration 90000 ∧
    calculateUptime (fun s => if s = "t0" then some 100 else if s = "t1" then some 40
        else none) 777 "t0" (some "t1") = formatDuration (-60) ∧
    formatDuration (-60) = "N/A" ∧
    formatDuration 90000 =
      itoa (90000 / 3600 / 24) ++ "d " ++ itoa (90000 / 3600 % 24) ++ "h" ∧
    formatDuration 3720 = itoa (3720 / 3600) ++ "h " ++ itoa (3720 / 60 % 60) ++ "m" ∧
    formatDuration 59 = itoa (59 / 60) ++ "m" := by
  refine ⟨?_, ?_, ?_, ?_, ?_, ?_, ?_⟩
  · exact C5_uptime_behavior.1 (fun _ => none) 1000 "garbage" none rfl
  · have h := C5_uptime_behavior.2.1 (fun s => if s = "t0" then some 100 else none)
      90100 "t0" 100 rfl
    rw [h]
    norm_num
  · have h := C5_uptime_behavior.2.2.2.2.1
      (fun s => if s = "t0" then some 100 else if s = "t1" then some 40 else none)
      777 "t0" "t1" 100 40 rfl (by decide) rfl
    rw [h]
    norm_num
  · exact C5_uptime_behavior.2.2.2.2.2.1 (-60) (by decide)
  · exact (C5_uptime_behavior.2.2.2.2.2.2.2.2 90000 (by decide)).mpr (by decide)
  · exact C5_uptime_behavior.2.2.2.2.2.2.2.1 3720 (by decide) (by decide)
  · exact C5_uptime_behavior.2.2.2.2.2.2.1 59 (by decide) (by decide)

theorem str_append_left_cancel {a b c : String} (h : a ++ b = a ++ c) : b = c := by
  have hd := congrArg String.data h
  rw [String.data_append, String.data_append] at hd
  exact String.ext (List.append_cancel_left hd)

/-- C8 (counterexample): the table renderers do not follow the claimed
(a)-(e) resolution order: a bare-metal row for a record with only a bare
public IP (rule (c)) and status "running" renders the generic placeholder
instead of "ssh user@ip", and a VM row for a record with node networking and
a username (rule (b)) renders the generic placeholder instead of the per-node
command — although the detail view resolves both as the claim states. -/
theorem C8_ssh_resolution_counterexample :
    sshSpecResolve { status := "running", meta := { publicIP := "1.2.3.4" } } =
      "ssh user@1.2.3.4" ∧
    sshTableBM { status := "running", meta := { publicIP := "1.2.3.4" } } =
      "SSH details not available" ∧
    sshDetailsBlock { status := "running", meta := { publicIP := "1.2.3.4" } } =
      "SSH Command: ssh user@1.2.3.4" ∧
    sshSpecResolve { status := "running", meta := { username := "ubuntu", nodeNetworking := [{ publicIP := "9.9.9.9" }] } } =
      "ssh ubuntu@9.9.9.9" ∧
    sshTableVM { status := "running", meta := { username := "ubuntu", nodeNetworking := [{ publicIP := "9.9.9.9" }] } } =
      "SSH details not available" :=
  ⟨rfl, rfl, rfl, rfl, rfl⟩

/-- C8 (amended): the DETAIL view resolves the SSH string by the
first-applicable-wins order (a) explicit command, (b) per-node
"ssh user@ip" lines (single line for one node, 1-based node labels
otherwise), (c) bare public IP with the generic "user" name, (d) the
"Available when ready" placeholder for case-insensitive status in
{pending, starting, provisioning, initializing}, (e) the
"SSH details not available" placeholder otherwise, and the placeholder
outcomes are textually distinct from each other and from any explicit command
other than the placeholder texts themselves; the VM table cell, however, only
implements (a), (d), (e), and the bare-metal table cell only (b), (d), (e). -/
theorem C8_ssh_resolution_amended (inst : OnDemandInstance) :
    (inst.meta.sshCommand ≠ "" →
      sshDetailsBlock inst = "SSH Command: " ++ inst.meta.sshCommand) ∧
    (∀ n, inst.meta.sshCommand = "" → inst.meta.nodeNetworking = [n] →
      inst.meta.username ≠ "" →
      sshDetailsBlock inst =
        "SSH Command: ssh " ++ inst.meta.username ++ "@" ++ n.publicIP) ∧
    (∀ a b rest, inst.meta.sshCommand = "" →
      inst.meta.nodeNetworking = a :: b :: rest → inst.meta.username ≠ "" →
      sshDetailsBlock inst = "SSH Commands:\n" ++ String.intercalate "\n"
        ((a :: b :: rest).mapIdx (fun i n =>
          "  Node " ++ itoa (i + 1) ++ ": ssh " ++ inst.meta.username ++ "@" ++
            n.publicIP))) ∧
    (inst.meta.sshCommand = "" →
      (inst.meta.nodeNetworking = [] ∨ inst.meta.username = "") →
      inst.meta.publicIP ≠ "" →
      sshDetailsBlock inst = "SSH Command: ssh user@" ++ inst.meta.publicIP) ∧
    (inst.meta.sshCommand = "" →
      (inst.meta.nodeNetworking = [] ∨ inst.meta.username = "") →
      inst.meta.publicIP = "" → isStartingStatus inst.status = true →
      sshDetailsBlock inst = "SSH Command: Available when ready") ∧
    (inst.meta.sshCommand = "" →
      (inst.meta.nodeNetworking = [] ∨ inst.meta.username = "") →
      inst.meta.publicIP = "" → isStartingStatus inst.status = false →
      sshDetailsBlock inst = "SSH Command: SSH details not available") ∧
    (inst.meta.sshCommand ≠ "" → inst.meta.sshCommand ≠ "Available when ready" →
      sshDetailsBlock inst ≠ "SSH Command: Available when ready") ∧
    (inst.meta.sshCommand ≠ "" → inst.meta.sshCommand ≠ "SSH details not available" →
      sshDetailsBlock inst ≠ "SSH Command: SSH details not available") ∧
    ("SSH Command: Available when ready" ≠
      ("SSH Command: SSH details not available" : String)) ∧
    (inst.meta.sshCommand = "" → isStartingStatus inst.status = false →
      sshTableVM inst = "SSH details not available") ∧
    ((inst.meta.nodeNetworking = [] ∨ inst.meta.username = "") →
      isStartingStatus inst.status = false →
      sshTableBM inst = "SSH details not available") := by
  have hcmd : ∀ (h : inst.meta.sshCommand ≠ ""),
      sshDetailsBlock inst = "SSH Command: " ++ inst.meta.sshCommand := by
    intro h
    simp only [sshDetailsBlock, if_pos h]
  have hnetFalse : (inst.meta.nodeNetworking = [] ∨ inst.meta.username = "") →
      ¬(inst.meta.nodeNetworking.length > 0 ∧ inst.meta.username ≠ "") := by
    rintro (h | h) ⟨h1, h2⟩
    · rw [h] at h1; simp at h1
    · exact h2 h
  refine ⟨hcmd, ?_, ?_, ?_, ?_, ?_, ?_, ?_, ?_, ?_, ?_⟩
  · intro n h0 hnet hu
    simp only [sshDetailsBlock, h0, ne_eq, not_true_eq_false, if_false, hnet]
    rw [if_pos ⟨by simp, hu⟩]
  · intro a b rest h0 hnet hu
    simp only [sshDetailsBlock, h0, ne_eq, not_true_eq_false, if_false, hnet]
    rw [if_pos ⟨by simp, hu⟩]
  · intro h0 hne hip
    simp only [sshDetailsBlock, h0, ne_eq, not_true_eq_false, if_false,
      if_neg (hnetFalse hne)]
    rw [if_pos hip]
  · intro h0 hne hip hst
    simp only [sshDetailsBlock, h0, ne_eq, not_true_eq_false, if_false,
      if_neg (hnetFalse hne), hip, not_false_eq_true, if_pos hst]
  · intro h0 hne hip hst
    simp only [sshDetailsBlock, h0, ne_eq, not_true_eq_false, if_false,
      if_neg (hnetFalse hne), hip, hst]
    simp
  · intro h hne heq
    rw [hcmd h] at heq
    exact hne (str_append_left_cancel heq)
  · intro h hne heq
    rw [hcmd h] at heq
    exact hne (str_append_left_cancel heq)
  · decide
  · intro h0 hst
    simp only [sshTableVM, h0, ne_eq, not_true_eq_false, if_false, hst]
    simp
  · intro hne hst
    simp only [sshTableBM, if_neg (hnetFalse hne), hst]
    simp

theorem C8_ssh_resolution_amended_witness :
    sshDetailsBlock { meta := { sshCommand := "ssh me@h" } } =
      "SSH Command: ssh me@h" ∧
    sshDetailsBlock { status := "Provisioning" } =
      "SSH Command: Available when ready" ∧
    sshDetailsBlock { status := "running" } =
      "SSH Command: SSH details not available" ∧
    sshDetailsBlock { meta := { username := "root", nodeNetworking := [{ publicIP := "8.8.8.8" }] } } =
      "SSH Command: ssh root@8.8.8.8" ∧
    sshTableVM { status := "running" } = "SSH details not available" := by
  refine ⟨?_, ?_, ?_, ?_, ?_⟩
  · have h := (C8_ssh_resolution_amended { meta := { sshCommand := "ssh me@h" } }).1
      (by decide)
    rw [h]
    rfl
  · exact (C8_ssh_resolution_amended { status := "Provisioning" }).2.2.2.2.1
      rfl (Or.inl rfl) rfl rfl
  · exact (C8_ssh_resolution_amended { status := "running" }).2.2.2.2.2.1
      rfl (Or.inl rfl) rfl rfl
  · have h := (C8_ssh_resolution_amended { meta := { username := "root", nodeNetworking := [{ publicIP := "8.8.8.8" }] } }).2.1
      { publicIP := "8.8.8.8" } rfl rfl (by decide)
    rw [h]
    rfl
  · exact (C8_ssh_resolution_amended { status := "running" }).2.2.2.2.2.2.2.2.2.1
      rfl rfl
